import Mathlib

/-!
Verification of the predictive-modeling and value-detection engine of the
ApostasIA repository against its natural-language specification.

The Python sources are shallowly embedded:
  * pure numeric code over floats becomes Lean functions over `ℚ` where the
    code is finite rational arithmetic, and over `ℝ` where it uses `exp`
    (the Poisson pmf) or real-exponent powers (the Power-Method de-vig);
  * `round(x, n)` becomes `roundq n x` (round-half-up; the sole divergence
    from Python's banker's rounding is at exact midpoints, which none of the
    statements below touch);
  * mutation of a `MatchAnalysis` dataclass becomes a function returning an
    updated structure;
  * `raise ValueError` rejection becomes `Except String`.
-/

/-- Dixon-Coles low-score correction factor, translated from `_tau` in
`models.py` (lines 32-56).  It differs from `1` only on the four cells
`(0,0)`, `(0,1)`, `(1,0)`, `(1,1)`.  Generic over an ordered field so the
same definition serves the real-valued grid and the rational-valued
pipeline parameters. -/
def _tau {α : Type} [LinearOrderedField α] (x y : ℕ) (lambda_ mu rho : α) : α :=
  if x = 0 ∧ y = 0 then 1 - lambda_ * mu * rho
  else if x = 0 ∧ y = 1 then 1 + lambda_ * rho
  else if x = 1 ∧ y = 0 then 1 + mu * rho
  else if x = 1 ∧ y = 1 then 1 - rho
  else 1

/-- Poisson probability mass function `exp (-lam) * lam^x / x!`, the value
`scipy.stats.poisson.pmf(x, lam)` used by `dixon_coles_probability`. -/
noncomputable def poisson_pmf (lam : ℝ) (x : ℕ) : ℝ :=
  Real.exp (-lam) * lam ^ x / (Nat.factorial x : ℝ)

/-- One cell of the Dixon-Coles joint distribution, translated from
`dixon_coles_probability` in `models.py` (lines 59-69):
`tau * Poisson(x; lambda) * Poisson(y; mu)`. -/
noncomputable def dixon_coles_probability (x y : ℕ) (lambda_ mu rho : ℝ) : ℝ :=
  _tau x y lambda_ mu rho * poisson_pmf lambda_ x * poisson_pmf mu y

/-- Sum of all pre-normalization cells of the `(max_goals+1) x (max_goals+1)`
grid, the `matrix.sum()` computed in `build_score_matrix`. -/
noncomputable def score_matrix_total (lambda_ mu rho : ℝ) (max_goals : ℕ) : ℝ :=
  ∑ p ∈ Finset.range (max_goals + 1) ×ˢ Finset.range (max_goals + 1),
    dixon_coles_probability p.1 p.2 lambda_ mu rho

/-- The normalized score matrix, translated from `build_score_matrix` in
`models.py` (lines 72-100): each cell is divided by the grid total when the
total is positive, otherwise the grid is returned unnormalized. -/
noncomputable def build_score_matrix (lambda_ mu rho : ℝ) (max_goals : ℕ) (i j : ℕ) : ℝ :=
  if 0 < score_matrix_total lambda_ mu rho max_goals then
    dixon_coles_probability i j lambda_ mu rho / score_matrix_total lambda_ mu rho max_goals
  else
    dixon_coles_probability i j lambda_ mu rho

/-- Extraction of the 1X2 probabilities from a score matrix of shape
`n x n`, translated from `extract_1x2_probabilities` in `models.py`
(lines 252-269): cells with `i > j` go to the home win, `i = j` to the
draw, and the remaining cells (`i < j`) to the away win. -/
noncomputable def extract_1x2_probabilities (M : ℕ → ℕ → ℝ) (n : ℕ) : ℝ × ℝ × ℝ :=
  ((Finset.range n ×ˢ Finset.range n).filter (fun p => p.2 < p.1) |>.sum (fun p => M p.1 p.2),
   (Finset.range n ×ˢ Finset.range n).filter (fun p => p.1 = p.2) |>.sum (fun p => M p.1 p.2),
   (Finset.range n ×ˢ Finset.range n).filter (fun p => p.1 < p.2) |>.sum (fun p => M p.1 p.2))

lemma poisson_pmf_pos {lam : ℝ} (h : 0 < lam) (x : ℕ) : 0 < poisson_pmf lam x := by
  unfold poisson_pmf
  have h1 : (0:ℝ) < Real.exp (-lam) := Real.exp_pos _
  have h2 : (0:ℝ) < lam ^ x := pow_pos h x
  have h3 : (0:ℝ) < (Nat.factorial x : ℝ) := by
    exact_mod_cast Nat.factorial_pos x
  positivity

/-- The four low-score corrections cancel in the grand total: the grid total
is the product of the two truncated Poisson masses, for every `rho`. -/
lemma score_matrix_total_eq (lambda_ mu rho : ℝ) (n : ℕ) (hn : 1 ≤ n) :
    score_matrix_total lambda_ mu rho n =
      (∑ i ∈ Finset.range (n + 1), poisson_pmf lambda_ i) *
        (∑ j ∈ Finset.range (n + 1), poisson_pmf mu j) := by
  classical
  set A := Finset.range (n + 1) ×ˢ Finset.range (n + 1) with hA
  have hsplit : ∀ p : ℕ × ℕ,
      dixon_coles_probability p.1 p.2 lambda_ mu rho =
        poisson_pmf lambda_ p.1 * poisson_pmf mu p.2 +
          (_tau p.1 p.2 lambda_ mu rho - 1) * (poisson_pmf lambda_ p.1 * poisson_pmf mu p.2) := by
    intro p
    unfold dixon_coles_probability
    ring
  have h1 : score_matrix_total lambda_ mu rho n =
      (∑ p ∈ A, poisson_pmf lambda_ p.1 * poisson_pmf mu p.2) +
        ∑ p ∈ A, (_tau p.1 p.2 lambda_ mu rho - 1) *
          (poisson_pmf lambda_ p.1 * poisson_pmf mu p.2) := by
    unfold score_matrix_total
    rw [← Finset.sum_add_distrib]
    exact Finset.sum_congr rfl (fun p _ => hsplit p)
  have h2 : (∑ p ∈ A, poisson_pmf lambda_ p.1 * poisson_pmf mu p.2) =
      (∑ i ∈ Finset.range (n + 1), poisson_pmf lambda_ i) *
        (∑ j ∈ Finset.range (n + 1), poisson_pmf mu j) := by
    rw [hA, Finset.sum_product
      (f := fun p : ℕ × ℕ => poisson_pmf lambda_ p.1 * poisson_pmf mu p.2)]
    exact (Finset.sum_mul_sum _ _ _ _).symm
  -- the correction term is supported on the four low-score cells
  set S : Finset (ℕ × ℕ) := {(0,0), (0,1), (1,0), (1,1)} with hS
  have hsub : S ⊆ A := by
    intro p hp
    have hn1 : 1 < n + 1 := by omega
    have hn0 : 0 < n + 1 := by omega
    fin_cases hp <;>
      simp only [hA, Finset.mem_product, Finset.mem_range] <;> omega
  have hzero : ∀ p ∈ A, p ∉ S →
      (_tau p.1 p.2 lambda_ mu rho - 1) * (poisson_pmf lambda_ p.1 * poisson_pmf mu p.2) = 0 := by
    rintro ⟨i, j⟩ _ hns
    have h00 : ¬(i = 0 ∧ j = 0) := by
      rintro ⟨rfl, rfl⟩; exact hns (by simp [hS])
    have h01 : ¬(i = 0 ∧ j = 1) := by
      rintro ⟨rfl, rfl⟩; exact hns (by simp [hS])
    have h10 : ¬(i = 1 ∧ j = 0) := by
      rintro ⟨rfl, rfl⟩; exact hns (by simp [hS])
    have h11 : ¬(i = 1 ∧ j = 1) := by
      rintro ⟨rfl, rfl⟩; exact hns (by simp [hS])
    simp [_tau, h00, h01, h10, h11]
  have h3 : (∑ p ∈ A, (_tau p.1 p.2 lambda_ mu rho - 1) *
      (poisson_pmf lambda_ p.1 * poisson_pmf mu p.2)) =
      ∑ p ∈ S, (_tau p.1 p.2 lambda_ mu rho - 1) *
        (poisson_pmf lambda_ p.1 * poisson_pmf mu p.2) :=
    (Finset.sum_subset hsub (fun p hp hns => hzero p hp hns)).symm
  have h4 : (∑ p ∈ S, (_tau p.1 p.2 lambda_ mu rho - 1) *
      (poisson_pmf lambda_ p.1 * poisson_pmf mu p.2)) = 0 := by
    have e0 : ((0,0) : ℕ × ℕ) ∉ ({(0,1), (1,0), (1,1)} : Finset (ℕ × ℕ)) := by decide
    have e1 : ((0,1) : ℕ × ℕ) ∉ ({(1,0), (1,1)} : Finset (ℕ × ℕ)) := by decide
    have e2 : ((1,0) : ℕ × ℕ) ∉ ({(1,1)} : Finset (ℕ × ℕ)) := by decide
    rw [hS, Finset.sum_insert e0, Finset.sum_insert e1, Finset.sum_insert e2,
      Finset.sum_singleton]
    simp only [_tau, poisson_pmf]
    norm_num [Nat.factorial]
    ring
  rw [h1, h2, h3, h4, add_zero]

lemma score_matrix_total_pos {lambda_ mu : ℝ} (rho : ℝ) {n : ℕ}
    (hn : 1 ≤ n) (hl : 0 < lambda_) (hm : 0 < mu) :
    0 < score_matrix_total lambda_ mu rho n := by
  rw [score_matrix_total_eq lambda_ mu rho n hn]
  have hA : 0 < ∑ i ∈ Finset.range (n + 1), poisson_pmf lambda_ i :=
    Finset.sum_pos (fun i _ => poisson_pmf_pos hl i) (by simp)
  have hB : 0 < ∑ j ∈ Finset.range (n + 1), poisson_pmf mu j :=
    Finset.sum_pos (fun j _ => poisson_pmf_pos hm j) (by simp)
  exact mul_pos hA hB

/-- Splitting a sum over the square grid into the home-win, draw and
away-win cells, mirroring the `if i > j / elif i == j / else` classification
of `extract_1x2_probabilities`. -/
lemma grid_trichotomy_sum (f : ℕ × ℕ → ℝ) (n : ℕ) :
    ((Finset.range n ×ˢ Finset.range n).filter (fun p => p.2 < p.1)).sum f +
      ((Finset.range n ×ˢ Finset.range n).filter (fun p => p.1 = p.2)).sum f +
      ((Finset.range n ×ˢ Finset.range n).filter (fun p => p.1 < p.2)).sum f =
      (Finset.range n ×ˢ Finset.range n).sum f := by
  classical
  set A := Finset.range n ×ˢ Finset.range n with hA
  have h1 : (A.filter (fun p => p.2 < p.1)).sum f + (A.filter (fun p => ¬ p.2 < p.1)).sum f
      = A.sum f := Finset.sum_filter_add_sum_filter_not A _ f
  have h2 : ((A.filter (fun p => ¬ p.2 < p.1)).filter (fun p => p.1 = p.2)).sum f +
      ((A.filter (fun p => ¬ p.2 < p.1)).filter (fun p => ¬ p.1 = p.2)).sum f
      = (A.filter (fun p => ¬ p.2 < p.1)).sum f :=
    Finset.sum_filter_add_sum_filter_not _ _ f
  have e1 : (A.filter (fun p => ¬ p.2 < p.1)).filter (fun p : ℕ × ℕ => p.1 = p.2)
      = A.filter (fun p => p.1 = p.2) := by
    rw [Finset.filter_filter]
    exact Finset.filter_congr (fun p _ => by omega)
  have e2 : (A.filter (fun p => ¬ p.2 < p.1)).filter (fun p : ℕ × ℕ => ¬ p.1 = p.2)
      = A.filter (fun p => p.1 < p.2) := by
    rw [Finset.filter_filter]
    exact Finset.filter_congr (fun p _ => by omega)
  rw [e1, e2] at h2
  rw [add_assoc, h2, h1]

/-- C8: for every lambda > 0, mu > 0, every rho and every grid size, the
three 1X2 probabilities extracted from the matrix built by
`build_score_matrix` sum to exactly 1 (the low-score corrections cancel in
the grid total, so the normalization branch always fires). -/
theorem extract_1x2_sum_one (lambda_ mu rho : ℝ) (n : ℕ)
    (hn : 1 ≤ n) (hl : 0 < lambda_) (hm : 0 < mu) :
    (extract_1x2_probabilities (build_score_matrix lambda_ mu rho n) (n + 1)).1 +
      (extract_1x2_probabilities (build_score_matrix lambda_ mu rho n) (n + 1)).2.1 +
      (extract_1x2_probabilities (build_score_matrix lambda_ mu rho n) (n + 1)).2.2 = 1 := by
  have hT : 0 < score_matrix_total lambda_ mu rho n := score_matrix_total_pos rho hn hl hm
  unfold extract_1x2_probabilities
  rw [grid_trichotomy_sum (fun p => build_score_matrix lambda_ mu rho n p.1 p.2) (n + 1)]
  have hmatrix : ∀ p : ℕ × ℕ, build_score_matrix lambda_ mu rho n p.1 p.2 =
      dixon_coles_probability p.1 p.2 lambda_ mu rho / score_matrix_total lambda_ mu rho n := by
    intro p
    unfold build_score_matrix
    rw [if_pos hT]
  calc (Finset.range (n+1) ×ˢ Finset.range (n+1)).sum
        (fun p => build_score_matrix lambda_ mu rho n p.1 p.2)
      = (Finset.range (n+1) ×ˢ Finset.range (n+1)).sum
        (fun p => dixon_coles_probability p.1 p.2 lambda_ mu rho /
          score_matrix_total lambda_ mu rho n) :=
        Finset.sum_congr rfl (fun p _ => hmatrix p)
    _ = score_matrix_total lambda_ mu rho n / score_matrix_total lambda_ mu rho n := by
        rw [← Finset.sum_div]; rfl
    _ = 1 := div_self (ne_of_gt hT)

lemma tau_nonneg_of_special {lambda_ mu rho : ℝ}
    (h00 : 0 ≤ _tau 0 0 lambda_ mu rho) (h01 : 0 ≤ _tau 0 1 lambda_ mu rho)
    (h10 : 0 ≤ _tau 1 0 lambda_ mu rho) (h11 : 0 ≤ _tau 1 1 lambda_ mu rho)
    (i j : ℕ) : 0 ≤ _tau i j lambda_ mu rho := by
  simp only [_tau] at h00 h01 h10 h11 ⊢
  norm_num at h00 h01 h10 h11
  split_ifs with hc1 hc2 hc3 hc4
  · linarith
  · linarith
  · linarith
  · linarith
  · exact zero_le_one

/-- C1 (amended): for lambda > 0, mu > 0 and any rho under which the four
special Dixon-Coles cells have non-negative tau, every entry of the matrix
returned by `build_score_matrix` is non-negative and the entries sum to
exactly 1.  (The claim's constraint `|rho| <= 1/(lambda*mu)` alone is not
enough; see the counterexample below.) -/
theorem build_score_matrix_nonneg_sum_one (lambda_ mu rho : ℝ) (n : ℕ)
    (hn : 1 ≤ n) (hl : 0 < lambda_) (hm : 0 < mu)
    (h00 : 0 ≤ _tau 0 0 lambda_ mu rho) (h01 : 0 ≤ _tau 0 1 lambda_ mu rho)
    (h10 : 0 ≤ _tau 1 0 lambda_ mu rho) (h11 : 0 ≤ _tau 1 1 lambda_ mu rho) :
    (∀ i j : ℕ, 0 ≤ build_score_matrix lambda_ mu rho n i j) ∧
      ((Finset.range (n+1) ×ˢ Finset.range (n+1)).sum
        (fun p => build_score_matrix lambda_ mu rho n p.1 p.2)) = 1 := by
  have hT : 0 < score_matrix_total lambda_ mu rho n := score_matrix_total_pos rho hn hl hm
  constructor
  · intro i j
    unfold build_score_matrix
    rw [if_pos hT]
    apply div_nonneg _ hT.le
    unfold dixon_coles_probability
    have htau := tau_nonneg_of_special h00 h01 h10 h11 i j
    have hp := poisson_pmf_pos hl i
    have hq := poisson_pmf_pos hm j
    positivity
  · have hmatrix : ∀ p : ℕ × ℕ, build_score_matrix lambda_ mu rho n p.1 p.2 =
        dixon_coles_probability p.1 p.2 lambda_ mu rho / score_matrix_total lambda_ mu rho n := by
      intro p
      unfold build_score_matrix
      rw [if_pos hT]
    calc (Finset.range (n+1) ×ˢ Finset.range (n+1)).sum
          (fun p => build_score_matrix lambda_ mu rho n p.1 p.2)
        = (Finset.range (n+1) ×ˢ Finset.range (n+1)).sum
          (fun p => dixon_coles_probability p.1 p.2 lambda_ mu rho /
            score_matrix_total lambda_ mu rho n) :=
          Finset.sum_congr rfl (fun p _ => hmatrix p)
      _ = score_matrix_total lambda_ mu rho n / score_matrix_total lambda_ mu rho n := by
          rw [← Finset.sum_div]; rfl
      _ = 1 := div_self (ne_of_gt hT)

/-- C1 counterexample: at lambda = 1, mu = 1/2, rho = -2 the claimed
constraint `|rho| <= 1/(lambda*mu)` holds, yet the normalized matrix cell
(0,1) produced by `build_score_matrix` is strictly negative, refuting the
claim that the constraint forces all entries to be non-negative. -/
theorem build_score_matrix_claim_cex :
    |(-2 : ℝ)| ≤ 1 / ((1 : ℝ) * (1/2)) ∧
      build_score_matrix 1 (1/2) (-2) 8 0 1 < 0 := by
  constructor
  · rw [abs_of_nonpos (by norm_num)]
    norm_num
  · have hT : 0 < score_matrix_total 1 (1/2) (-2) 8 :=
      score_matrix_total_pos (-2) (by norm_num) (by norm_num) (by norm_num)
    unfold build_score_matrix
    rw [if_pos hT]
    apply div_neg_of_neg_of_pos _ hT
    unfold dixon_coles_probability
    have htau : _tau 0 1 (1:ℝ) (1/2) (-2) = -1 := by
      simp [_tau]
      norm_num
    rw [htau]
    have hp := poisson_pmf_pos (show (0:ℝ) < 1 by norm_num) 0
    have hq := poisson_pmf_pos (show (0:ℝ) < 1/2 by norm_num) 1
    nlinarith

/-- Witness for C1 at lambda = 1, mu = 1, rho = 0, max_goals = 8. -/
theorem build_score_matrix_nonneg_sum_one_witness :
    0 ≤ build_score_matrix 1 1 0 8 0 0 ∧
      ((Finset.range (8+1) ×ˢ Finset.range (8+1)).sum
        (fun p => build_score_matrix 1 1 0 8 p.1 p.2)) = 1 :=
  ⟨(build_score_matrix_nonneg_sum_one 1 1 0 8 (by decide) one_pos one_pos
      (by simp [_tau]) (by simp [_tau]) (by simp [_tau]) (by simp [_tau])).1 0 0,
   (build_score_matrix_nonneg_sum_one 1 1 0 8 (by decide) one_pos one_pos
      (by simp [_tau]) (by simp [_tau]) (by simp [_tau]) (by simp [_tau])).2⟩

/-- Witness for C8 at lambda = 1, mu = 1, rho = -1/20 (the source default),
max_goals = 8. -/
theorem extract_1x2_sum_one_witness :
    (extract_1x2_probabilities (build_score_matrix 1 1 (-(1/20)) 8) (8+1)).1 +
      (extract_1x2_probabilities (build_score_matrix 1 1 (-(1/20)) 8) (8+1)).2.1 +
      (extract_1x2_probabilities (build_score_matrix 1 1 (-(1/20)) 8) (8+1)).2.2 = 1 :=
  extract_1x2_sum_one 1 1 (-(1/20)) 8 (by decide) one_pos one_pos

/-- Python's `round(x, n)` on the rationals (round-half-up at midpoints,
where Python rounds half-to-even; no statement below sits on a midpoint). -/
def roundq (n : ℕ) (x : ℚ) : ℚ :=
  ((round (x * 10 ^ n) : ℤ) : ℚ) / 10 ^ n

lemma roundq_mono {n : ℕ} {x y : ℚ} (h : x ≤ y) : roundq n x ≤ roundq n y := by
  unfold roundq
  have hpow : (0:ℚ) < 10 ^ n := by positivity
  have hmul : x * 10 ^ n ≤ y * 10 ^ n := mul_le_mul_of_nonneg_right h hpow.le
  have hr : round (x * 10 ^ n) ≤ round (y * 10 ^ n) := by
    rw [round_eq, round_eq]
    exact Int.floor_le_floor (by linarith)
  have hrq : ((round (x * 10 ^ n) : ℤ) : ℚ) ≤ ((round (y * 10 ^ n) : ℤ) : ℚ) := by
    exact_mod_cast hr
  exact div_le_div_of_nonneg_right hrq hpow.le

lemma abs_roundq_sub (n : ℕ) (x : ℚ) : |roundq n x - x| ≤ 1 / (2 * 10 ^ n) := by
  unfold roundq
  have hpow : (0:ℚ) < 10 ^ n := by positivity
  have h1 : |((round (x * 10 ^ n) : ℤ) : ℚ) - x * 10 ^ n| ≤ 1 / 2 := by
    have := abs_sub_round (x * 10 ^ n)
    rw [abs_sub_comm] at this
    exact this
  have h2 : ((round (x * 10 ^ n) : ℤ) : ℚ) / 10 ^ n - x
      = (((round (x * 10 ^ n) : ℤ) : ℚ) - x * 10 ^ n) / 10 ^ n := by
    field_simp
    ring
  rw [h2, abs_div, abs_of_pos hpow]
  rw [div_le_div_iff₀ hpow (by positivity)]
  calc |((round (x * 10 ^ n) : ℤ) : ℚ) - x * 10 ^ n| * (2 * 10 ^ n)
      ≤ (1/2) * (2 * 10 ^ n) := by
        apply mul_le_mul_of_nonneg_right h1 (by positivity)
    _ = 1 * 10 ^ n := by ring

/-- KELLY_FRACTION from `config.py`: fractional Kelly (1/4). -/
def KELLY_FRACTION : ℚ := 25/100

/-- MAX_KELLY_BET from `config.py`: at most 5 percent of the bankroll. -/
def MAX_KELLY_BET : ℚ := 5/100

/-- MIN_EDGE_THRESHOLD from `config.py`. -/
def MIN_EDGE_THRESHOLD : ℚ := 3/100

/-- DIXON_COLES_MAX_GOALS from `config.py`. -/
def DIXON_COLES_MAX_GOALS : ℕ := 8

/-- Per-team statistics vector, translated from the `TeamStats` dataclass in
`data_ingestion.py` (lines 146-173).  Fields not consumed by the embedded
functions (shot/corner/card averages, names, ...) are omitted; the
`last_match_date` strings are modeled as an optional timestamp in hours
(parse failures and absent dates both map to `none`, matching the
`except` branch of `check_fatigue`). -/
structure TeamStats where
  attack_strength : ℚ := 0
  defense_strength : ℚ := 0
  home_goals_scored_avg : ℚ := 0
  home_goals_conceded_avg : ℚ := 0
  away_goals_scored_avg : ℚ := 0
  away_goals_conceded_avg : ℚ := 0
  form_points : ℚ := 0
  league_position : ℕ := 0
  games_played : ℕ := 0
  games_remaining : ℕ := 0
  points_to_title : ℤ := 99
  points_to_relegation : ℤ := 99
  last_match_date : Option ℚ := none
  deriving DecidableEq

/-- Weather reading, from the `WeatherData` dataclass in
`data_ingestion.py` (lines 176-182). -/
structure WeatherData where
  temperature_c : ℚ := 20
  wind_speed_kmh : ℚ := 5
  rain_mm : ℚ := 0
  deriving DecidableEq

/-- Match aggregate, translated from the `MatchAnalysis` dataclass in
`data_ingestion.py` (lines 218-271), restricted to the fields read or
written by the embedded functions.  Injury lists hold one Boolean per
injured player recording whether the entry mentions a long-term absence
("meses"/"months"), the only property `calculate_injury_impact` inspects. -/
structure MatchAnalysis where
  match_id : ℕ := 0
  match_date : ℚ := 0
  home_team : TeamStats := {}
  away_team : TeamStats := {}
  weather : WeatherData := {}
  league_urgency_home : ℚ := 1/2
  league_urgency_away : ℚ := 1/2
  home_fatigue : Bool := false
  away_fatigue : Bool := false
  injuries_home : List Bool := []
  injuries_away : List Bool := []
  model_home_xg : ℚ := 0
  model_away_xg : ℚ := 0
  model_prob_home : ℚ := 0
  model_prob_draw : ℚ := 0
  model_prob_away : ℚ := 0
  model_prob_over25 : ℚ := 0
  model_prob_btts : ℚ := 0
  model_corners_expected : ℚ := 0
  model_cards_expected : ℚ := 0
  has_real_odds : Bool := false
  has_real_standings : Bool := false
  data_quality_score : ℚ := 0
  odds_home_away_suspect : Bool := false
  league_avg_goals : ℚ := 27/10
  deriving DecidableEq

/-- League Urgency Score, translated from `calculate_league_urgency` in
`context_engine.py` (lines 24-65); `total_teams` is always passed as 20 by
the caller (the Python default). -/
def calculate_league_urgency (points_to_title points_to_relegation : ℤ)
    (league_position games_remaining total_teams : ℕ) : ℚ :=
  if points_to_title ≤ 3 then 1
  else if points_to_relegation ≤ 3 then 1
  else
    let mid_start := total_teams / 3
    let mid_end := 2 * total_teams / 3
    let is_mid_table := mid_start ≤ league_position ∧ league_position ≤ mid_end
    if is_mid_table ∧ games_remaining ≤ 5 then 1/5
    else
      let title_urgency := max 0 (1 - (points_to_title : ℚ) / 20)
      let relegation_urgency := max 0 (1 - (points_to_relegation : ℚ) / 15)
      let base_urgency := max title_urgency relegation_urgency
      let base_urgency2 :=
        if games_remaining ≤ 8 then
          min 1 (base_urgency * (1 + ((8 : ℚ) - (games_remaining : ℚ)) * (5/100)))
        else base_urgency
      roundq 3 (max (1/5) (min 1 (base_urgency2 + 1/5)))

/-- Outcome of `calculate_weather_adjustments` (the multiplier dictionary,
minus the display strings). -/
structure WeatherAdjustments where
  xg_multiplier : ℚ
  corners_multiplier : ℚ
  cards_multiplier : ℚ
  btts_boost : ℚ
  variance_multiplier : ℚ
  deriving DecidableEq

/-- Weather multipliers, translated from `calculate_weather_adjustments` in
`context_engine.py` (lines 72-145), with the thresholds and penalties of
`config.py` inlined (wind 20 km/h, rain 5 mm, heat 30 C, wind penalty 0.08,
rain penalty 0.05). -/
def calculate_weather_adjustments (m : MatchAnalysis) : WeatherAdjustments :=
  let w := m.weather
  let xg0 : ℚ := 1
  let co0 : ℚ := 1
  let ca0 : ℚ := 1
  let bt0 : ℚ := 0
  let va0 : ℚ := 1
  -- wind
  let wind_severity := min 1 ((w.wind_speed_kmh - 20) / 30)
  let xg_penalty := (8/100) * (1 + wind_severity)
  let xg1 := if 20 < w.wind_speed_kmh then xg0 - xg_penalty else xg0
  let co1 := if 20 < w.wind_speed_kmh then co0 - xg_penalty * (1/2) else co0
  let va1 := if 20 < w.wind_speed_kmh then va0 + wind_severity * (15/100) else va0
  -- rain
  let rain_severity := min 1 ((w.rain_mm - 5) / 15)
  let xg_rain_adj := (5/100) * (1 + rain_severity)
  let xg2 := if 5 < w.rain_mm then xg1 - xg_rain_adj * (3/10) else xg1
  let bt1 := if 5 < w.rain_mm then rain_severity * (5/100) else bt0
  let va2 := if 5 < w.rain_mm then va1 + rain_severity * (2/10) else va1
  let ca1 := if 5 < w.rain_mm then ca0 + rain_severity * (1/10) else ca0
  -- extreme temperature
  let heat_severity := min 1 ((w.temperature_c - 30) / 10)
  let cold_severity := min 1 ((5 - w.temperature_c) / 15)
  let xg3 := if 30 < w.temperature_c then xg2 - heat_severity * (4/100) else xg2
  let co2 := if 30 < w.temperature_c then co1 - heat_severity * (1/10) else co1
  let va3 := if 30 < w.temperature_c then va2
    else if w.temperature_c < 5 then va2 + cold_severity * (1/10) else va2
  { xg_multiplier := max (75/100) (min (110/100) xg3)
    corners_multiplier := max (70/100) (min (110/100) co2)
    cards_multiplier := max (85/100) (min (125/100) ca1)
    btts_boost := bt1
    variance_multiplier := max 1 (min (150/100) va3) }

/-- Fatigue check, translated from `check_fatigue` in `context_engine.py`
(lines 152-174): dates are modeled as rational hour timestamps; a missing
or unparseable date yields `(false, 1.0)` as in the source. -/
def check_fatigue (last_match_date : Option ℚ) (match_date : ℚ) : Bool × ℚ :=
  match last_match_date with
  | none => (false, 1)
  | some last =>
    let hours_diff := match_date - last
    if hours_diff < 72 then
      let rest_ratio := hours_diff / 72
      let penalty := (15/100) * (1 - rest_ratio)
      (true, roundq 3 (1 - penalty))
    else (false, 1)

/-- Injury impact, translated from `calculate_injury_impact` in
`context_engine.py` (lines 181-201); each list entry records whether that
injury is long-term ("meses"/"months" in its text). -/
def calculate_injury_impact (injuries : List Bool) : ℚ :=
  if injuries = [] then 1
  else
    let n_injuries := injuries.length
    let impact := max (85/100) (1 - (n_injuries : ℚ) * (25/1000))
    let impact2 := impact - (1/100) * ((injuries.countP id : ℕ) : ℚ)
    roundq 3 (max (80/100) impact2)

/-- Step 1 of `apply_contextual_adjustments` (`context_engine.py` lines
218-250): league urgency, complacency shift toward the draw, and the
motivation boost when the urgency gap exceeds 0.4. -/
def context_urgency_step (m : MatchAnalysis) : MatchAnalysis :=
  let home_lus := calculate_league_urgency m.home_team.points_to_title
    m.home_team.points_to_relegation m.home_team.league_position
    m.home_team.games_remaining 20
  let away_lus := calculate_league_urgency m.away_team.points_to_title
    m.away_team.points_to_relegation m.away_team.league_position
    m.away_team.games_remaining 20
  let m1 := { m with league_urgency_home := home_lus, league_urgency_away := away_lus }
  if home_lus < 4/10 ∧ away_lus < 4/10 then
    { m1 with
      model_prob_home := m1.model_prob_home * (1 - (7/100) * (1/2))
      model_prob_away := m1.model_prob_away * (1 - (7/100) * (1/2))
      model_prob_draw := m1.model_prob_draw + 7/100 }
  else if 4/10 < |home_lus - away_lus| then
    if away_lus < home_lus then
      { m1 with
        model_prob_home := m1.model_prob_home + 3/100
        model_prob_away := m1.model_prob_away - 3/100 }
    else
      { m1 with
        model_prob_away := m1.model_prob_away + 3/100
        model_prob_home := m1.model_prob_home - 3/100 }
  else m1

/-- Step 2 of `apply_contextual_adjustments` (`context_engine.py` lines
252-266): weather multipliers on expected goals, corners and cards, the
BTTS boost, and the over-2.5 penalty when the xG multiplier drops
below 0.95. -/
def context_weather_step (m : MatchAnalysis) : MatchAnalysis :=
  let adj := calculate_weather_adjustments m
  let m1 := { m with
    model_home_xg := m.model_home_xg * adj.xg_multiplier
    model_away_xg := m.model_away_xg * adj.xg_multiplier
    model_corners_expected := m.model_corners_expected * adj.corners_multiplier
    model_cards_expected := m.model_cards_expected * adj.cards_multiplier }
  let m2 := if 0 < adj.btts_boost then
    { m1 with model_prob_btts := min (95/100) (m1.model_prob_btts + adj.btts_boost) }
    else m1
  if adj.xg_multiplier < 95/100 then
    { m2 with model_prob_over25 :=
        m2.model_prob_over25 * (1 - (1 - adj.xg_multiplier) * (8/10)) }
  else m2

/-- Step 3 of `apply_contextual_adjustments` (`context_engine.py` lines
268-289): fatigue penalties; the rested opponent is boosted by the mirror
factor `2 - factor`. -/
def context_fatigue_step (m : MatchAnalysis) : MatchAnalysis :=
  let hf := check_fatigue m.home_team.last_match_date m.match_date
  let af := check_fatigue m.away_team.last_match_date m.match_date
  let m1 := { m with home_fatigue := hf.1, away_fatigue := af.1 }
  let m2 := if hf.1 then
    { m1 with
      model_prob_home := m1.model_prob_home * hf.2
      model_prob_away := m1.model_prob_away * (2 - hf.2)
      model_home_xg := m1.model_home_xg * hf.2
      model_corners_expected := m1.model_corners_expected * ((hf.2 + 1) / 2) }
    else m1
  if af.1 then
    { m2 with
      model_prob_away := m2.model_prob_away * af.2
      model_prob_home := m2.model_prob_home * (2 - af.2)
      model_away_xg := m2.model_away_xg * af.2
      model_corners_expected := m2.model_corners_expected * ((af.2 + 1) / 2) }
  else m2

/-- Step 4 of `apply_contextual_adjustments` (`context_engine.py` lines
291-299): injury impacts dampen a side's win probability and inflate the
opponent's expected goals. -/
def context_injury_step (m : MatchAnalysis) : MatchAnalysis :=
  let home_injury_impact := calculate_injury_impact m.injuries_home
  let away_injury_impact := calculate_injury_impact m.injuries_away
  { m with
    model_prob_home := m.model_prob_home * home_injury_impact
    model_away_xg := m.model_away_xg / max (85/100) away_injury_impact
    model_prob_away := m.model_prob_away * away_injury_impact
    model_home_xg := m.model_home_xg / max (85/100) home_injury_impact }

/-- The state reached in `apply_contextual_adjustments` just before the
final normalization block (`context_engine.py` line 301). -/
def context_pre_norm (m : MatchAnalysis) : MatchAnalysis :=
  context_injury_step (context_fatigue_step (context_weather_step (context_urgency_step m)))

/-- The final normalization-and-clamp block of `apply_contextual_adjustments`
(`context_engine.py` lines 301-314). -/
def context_finalize (m : MatchAnalysis) : MatchAnalysis :=
  let total := m.model_prob_home + m.model_prob_draw + m.model_prob_away
  let m1 := if 0 < total then
    { m with
      model_prob_home := roundq 4 (m.model_prob_home / total)
      model_prob_draw := roundq 4 (m.model_prob_draw / total)
      model_prob_away := roundq 4 (m.model_prob_away / total) }
    else m
  { m1 with
    model_prob_over25 := roundq 4 (max (5/100) (min (95/100) m1.model_prob_over25))
    model_prob_btts := roundq 4 (max (5/100) (min (95/100) m1.model_prob_btts))
    model_home_xg := roundq 3 (max (2/10) m1.model_home_xg)
    model_away_xg := roundq 3 (max (15/100) m1.model_away_xg)
    model_corners_expected := roundq 2 (max 3 m1.model_corners_expected)
    model_cards_expected := roundq 2 (max (15/10) m1.model_cards_expected) }

/-- Full contextual-adjustment pipeline, translated from
`apply_contextual_adjustments` in `context_engine.py` (lines 208-316). -/
def apply_contextual_adjustments (m : MatchAnalysis) : MatchAnalysis :=
  context_finalize (context_pre_norm m)

/-- Edge computation, translated from `calculate_edge` in `value_finder.py`
(lines 383-391): `model_prob * market_odd - 1`. -/
def calculate_edge (model_prob market_odd : ℚ) : ℚ :=
  model_prob * market_odd - 1

/-- Fractional Kelly stake, translated from `fractional_kelly` in
`value_finder.py` (lines 394-424).  The `fraction=None` default resolves to
`KELLY_FRACTION`; callers here always pass the fraction explicitly. -/
def fractional_kelly (model_prob market_odd fraction : ℚ) : ℚ :=
  let b := market_odd - 1
  if b ≤ 0 then 0
  else
    let kelly := (model_prob * (b + 1) - 1) / b
    if kelly ≤ 0 then 0
    else
      let kelly_frac := kelly * fraction
      min MAX_KELLY_BET (max 0 kelly_frac)

/-- Confidence tier, translated from `classify_confidence` in
`value_finder.py` (lines 431-453).  The inner branch on adverse conditions
returns the same label on both sides, exactly as the source does. -/
def classify_confidence (edge model_prob : ℚ) (weather_stable fatigue_free : Bool) : String :=
  if 1/10 < edge ∧ 4/10 < model_prob ∧ weather_stable = true ∧ fatigue_free = true then
    "ALTO"
  else if 8/100 < edge ∧ 35/100 < model_prob then
    "ALTO"
  else if 5/100 < edge then
    if weather_stable = false ∨ fatigue_free = false then "MÉDIO" else "MÉDIO"
  else if 3/100 < edge then
    "BAIXO"
  else
    "BAIXO"

/-- Simple multiplicative normalization of implied probabilities, the
fallback branch of `power_method_devig` in `value_finder.py`
(lines 303-307 and 318-322): `p_i = (1/odd_i) / sum_j (1/odd_j)`. -/
noncomputable def normalize_implied (odds : List ℝ) : List ℝ :=
  let probs := odds.map (fun o => 1 / o)
  let total := probs.sum
  probs.map (fun p => p / total)

open Classical in
/-- Power-Method de-vig, translated from `power_method_devig` in
`value_finder.py` (lines 287-322).  The `scipy.optimize.brentq` root search
for `k` on `[0.5, 2.0]` is modeled by the `root` argument: `some k` is a
successful solve of `sum (1/odd_i)^k = 1` (theorems take that equation as a
hypothesis), `none` is a root-finding failure, and both failure and any odd
at or below 1.0 fall back to multiplicative normalization as in the source. -/
noncomputable def power_method_devig (odds : List ℝ) (root : Option ℝ) : List ℝ :=
  if odds = [] ∨ ∃ o ∈ odds, o ≤ 1 then normalize_implied odds
  else
    match root with
    | some k => odds.map (fun o => (1 / o) ^ k)
    | none => normalize_implied odds

/-- One value-bet record, translated from the `ValueOpportunity` dataclass
in `value_finder.py` (lines 250-280), restricted to the fields the scanner
gate and deduplication read; presentation-only text fields (reasoning,
formatted percentages, notes) are omitted. -/
structure ValueOpportunity where
  match_id : ℕ := 0
  market : String := ""
  selection : String := ""
  market_odd : ℚ := 0
  model_prob : ℚ := 0
  edge : ℚ := 0
  kelly_fraction : ℚ := 0
  confidence : String := ""
  deriving DecidableEq

/-- Accent stripping for the characters occurring in selection labels: the
effect of NFKD decomposition followed by dropping combining marks inside
`_norm_sel` in `value_finder.py` (lines 1066-1072). -/
def strip_accent (c : Char) : Char :=
  if c = 'á' ∨ c = 'à' ∨ c = 'â' ∨ c = 'ã' ∨ c = 'ä' then 'a'
  else if c = 'Á' ∨ c = 'À' ∨ c = 'Â' ∨ c = 'Ã' ∨ c = 'Ä' then 'A'
  else if c = 'é' ∨ c = 'è' ∨ c = 'ê' ∨ c = 'ë' then 'e'
  else if c = 'É' ∨ c = 'È' ∨ c = 'Ê' ∨ c = 'Ë' then 'E'
  else if c = 'í' ∨ c = 'ì' ∨ c = 'î' ∨ c = 'ï' then 'i'
  else if c = 'Í' ∨ c = 'Ì' ∨ c = 'Î' ∨ c = 'Ï' then 'I'
  else if c = 'ó' ∨ c = 'ò' ∨ c = 'ô' ∨ c = 'õ' ∨ c = 'ö' then 'o'
  else if c = 'Ó' ∨ c = 'Ò' ∨ c = 'Ô' ∨ c = 'Õ' ∨ c = 'Ö' then 'O'
  else if c = 'ú' ∨ c = 'ù' ∨ c = 'û' ∨ c = 'ü' then 'u'
  else if c = 'Ú' ∨ c = 'Ù' ∨ c = 'Û' ∨ c = 'Ü' then 'U'
  else if c = 'ç' then 'c'
  else if c = 'Ç' then 'C'
  else c

/-- Replacement of em dash, en dash and hyphen by a space, the
`.replace` chain of `_norm_sel`. -/
def dash_to_space (c : Char) : Char :=
  if c = '—' ∨ c = '–' ∨ c = '-' then ' ' else c

/-- A single left-to-right pass replacing each double space by one space,
the semantics of Python's `str.replace('  ', ' ')`. -/
def collapse_double_spaces : List Char → List Char
  | [] => []
  | [c] => [c]
  | c1 :: c2 :: rest =>
    if c1 = ' ' ∧ c2 = ' ' then ' ' :: collapse_double_spaces rest
    else c1 :: collapse_double_spaces (c2 :: rest)

/-- Removal of leading and trailing spaces, Python's `str.strip()`. -/
def strip_spaces (l : List Char) : List Char :=
  ((l.dropWhile (fun c => c = ' ')).reverse.dropWhile (fun c => c = ' ')).reverse

/-- Selection-text normalization, translated from `_norm_sel` inside
`scan_match_for_value` in `value_finder.py` (lines 1066-1072): strip
accents, lowercase, turn dashes into spaces, collapse double spaces once,
and strip. -/
def _norm_sel (s : String) : String :=
  ⟨strip_spaces (collapse_double_spaces
    (s.data.map (fun c => dash_to_space (Char.toLower (strip_accent c)))))⟩

/-- The deduplication loop of `scan_match_for_value` (`value_finder.py`
lines 1074-1086): `acc` plays the role of `deduped`; the `seen` index map is
realized by looking the normalized key up in `acc`, and a later opportunity
replaces the stored one exactly when its edge is strictly larger. -/
def dedup_go (norm : String → String) :
    List ValueOpportunity → List ValueOpportunity → List ValueOpportunity
  | [], acc => acc
  | opp :: rest, acc =>
    if acc.any (fun p => norm p.selection == norm opp.selection) then
      dedup_go norm rest
        (acc.map (fun p =>
          if norm p.selection = norm opp.selection ∧ p.edge < opp.edge then opp else p))
    else
      dedup_go norm rest (acc ++ [opp])

/-- Deduplication entry point (empty accumulator, as the source starts with
`seen = {}` and `deduped = []`). -/
def dedup_opportunities (norm : String → String) (l : List ValueOpportunity) :
    List ValueOpportunity :=
  dedup_go norm l []

/-- Market scanner, translated from `scan_match_for_value` in
`value_finder.py` (lines 727-1086).  The early quality gate (lines 751-773)
and the final deduplication (lines 1064-1086) are embedded verbatim; the
market-enumeration body in between (lines 775-1062), which builds the
candidate list from odds and model probabilities, is abstracted as the
`candidates` argument — the claims settled against this function quantify
over all candidate lists / all odds and model values. -/
def scan_match_for_value (m : MatchAnalysis)
    (candidates : MatchAnalysis → List ValueOpportunity) : List ValueOpportunity :=
  if !m.has_real_odds && !m.has_real_standings then []
  else if m.data_quality_score < 4/10 then []
  else if m.home_team.attack_strength ≤ 0 ∨ m.home_team.defense_strength ≤ 0 ∨
      m.away_team.attack_strength ≤ 0 ∨ m.away_team.defense_strength ≤ 0 then []
  else dedup_opportunities _norm_sel (candidates m)

/-- Shrinkage toward the league mean, translated from `_regress_to_mean` in
`models.py` (lines 128-141). -/
def _regress_to_mean (observed_avg league_mean : ℚ) (games_played min_games : ℕ) : ℚ :=
  if min_games ≤ games_played then observed_avg
  else
    let weight : ℚ := (games_played : ℚ) / (min_games : ℚ)
    weight * observed_avg + (1 - weight) * league_mean

/-- Attack/defense coefficients, translated from
`estimate_attack_defense_params` in `models.py` (lines 103-125). -/
def estimate_attack_defense_params
    (home_scored_avg home_conceded_avg away_scored_avg away_conceded_avg
      league_avg_goals : ℚ) : ℚ × ℚ × ℚ × ℚ :=
  let half_avg := league_avg_goals / 2
  (if 0 < half_avg then max (3/10) (home_scored_avg / half_avg) else 1,
   if 0 < half_avg then max (3/10) (home_conceded_avg / half_avg) else 1,
   if 0 < half_avg then max (3/10) (away_scored_avg / half_avg) else 1,
   if 0 < half_avg then max (3/10) (away_conceded_avg / half_avg) else 1)

/-- The unclamped expected-goal rates of `calculate_expected_goals` in
`models.py` (lines 144-214): neutral-venue handling for suspect odds,
regression to the league mean, attack/defense coefficients, home advantage
and the recent-form factors, up to but not including the final clamp.  The
write-back of the display-only fields `model_alpha_h`..`model_beta_a` is
omitted (they feed the UI only). -/
def calculate_expected_goals_raw (m : MatchAnalysis) : ℚ × ℚ :=
  let home := m.home_team
  let away := m.away_team
  let league_avg := if m.league_avg_goals = 0 then 27/10 else m.league_avg_goals
  let league_half := league_avg / 2
  let suspect := m.odds_home_away_suspect
  let h_scored := if suspect then (home.home_goals_scored_avg + home.away_goals_scored_avg) / 2
    else home.home_goals_scored_avg
  let h_conceded := if suspect then
    (home.home_goals_conceded_avg + home.away_goals_conceded_avg) / 2
    else home.home_goals_conceded_avg
  let a_scored := if suspect then (away.home_goals_scored_avg + away.away_goals_scored_avg) / 2
    else away.away_goals_scored_avg
  let a_conceded := if suspect then
    (away.home_goals_conceded_avg + away.away_goals_conceded_avg) / 2
    else away.away_goals_conceded_avg
  let home_advantage : ℚ := if suspect then 1 else 108/100
  let home_gp := if home.games_played = 0 then 1 else home.games_played
  let away_gp := if away.games_played = 0 then 1 else away.games_played
  let h_scored2 := _regress_to_mean h_scored league_half home_gp 15
  let h_conceded2 := _regress_to_mean h_conceded league_half home_gp 15
  let a_scored2 := _regress_to_mean a_scored league_half away_gp 15
  let a_conceded2 := _regress_to_mean a_conceded league_half away_gp 15
  let params := estimate_attack_defense_params h_scored2 h_conceded2 a_scored2 a_conceded2
    league_avg
  let alpha_h := params.1
  let beta_h := params.2.1
  let alpha_a := params.2.2.1
  let beta_a := params.2.2.2
  let lambda0 := alpha_h * beta_a * home_advantage
  let mu0 := alpha_a * beta_h
  let home_form_factor := 85/100 + home.form_points * (3/10)
  let away_form_factor := 85/100 + away.form_points * (3/10)
  (lambda0 * home_form_factor, mu0 * away_form_factor)

/-- Expected goals, translated from `calculate_expected_goals` in
`models.py` (lines 144-219): the raw rates above, clamped to
lambda in [0.3, 3.5] and mu in [0.2, 3.0] and rounded to 4 decimals. -/
def calculate_expected_goals (m : MatchAnalysis) : ℚ × ℚ :=
  (roundq 4 (max (3/10) (min (7/2) (calculate_expected_goals_raw m).1)),
   roundq 4 (max (2/10) (min 3 (calculate_expected_goals_raw m).2)))

/-- Correlation parameter selection, translated from `fit_rho_parameter` in
`models.py` (lines 222-245): a heuristic base value by total expected
goals, clamped to `[-max_rho, max_rho]` with `max_rho = 1/max(0.01, lambda*mu)`. -/
def fit_rho_parameter (lambda_ mu : ℚ) : ℚ :=
  let total_xg := lambda_ + mu
  let rho : ℚ :=
    if total_xg < 15/10 then -(12/100)
    else if total_xg < 25/10 then -(8/100)
    else if total_xg < 35/10 then -(4/100)
    else -(2/100)
  let max_rho := 1 / max (1/100) (lambda_ * mu)
  max (-max_rho) (min max_rho rho)

/-- The post-gate modeling body of `run_full_model`: the deterministic part
embedded here is the expected-goals computation written back onto the match
(`models.py` lines 676-679); the later population of market probabilities
blends a Monte Carlo sample (`np.random.choice`) and is outside this
deterministic embedding — the claims settled against `run_full_model`
concern its rejection gate and batch behavior only. -/
def model_populate (m : MatchAnalysis) : MatchAnalysis :=
  let xg := calculate_expected_goals m
  { m with model_home_xg := xg.1, model_away_xg := xg.2 }

/-- Rejection gate and pipeline of `run_full_model` in `models.py`
(lines 639-849); `raise ValueError(...)` becomes `Except.error` with the
same reason text (abridged). -/
def run_full_model (m : MatchAnalysis) : Except String MatchAnalysis :=
  if !m.has_real_odds then
    .error "rejeitada: sem odds REAIS"
  else if !m.has_real_standings then
    .error "rejeitada: sem standings REAIS"
  else if m.data_quality_score < 4/10 then
    .error "rejeitada: qualidade de dados insuficiente"
  else if m.home_team.attack_strength ≤ 0 ∨ m.home_team.defense_strength ≤ 0 ∨
      m.away_team.attack_strength ≤ 0 ∨ m.away_team.defense_strength ≤ 0 then
    .error "rejeitada: valores de ataque/defesa invalidos"
  else
    .ok (model_populate m)

/-- Batch driver, translated from `run_models_batch` in `models.py`
(lines 852-888): every match is attempted, a `ValueError` rejection is
caught and the loop continues, and only successful results are collected
in order. -/
def run_models_batch (ms : List MatchAnalysis) : List MatchAnalysis :=
  ms.filterMap (fun m => (run_full_model m).toOption)

/-- C5: the fractional Kelly stake is 0 whenever the edge is non-positive
(`model_prob * odd <= 1`) and whenever `odd <= 1`, never exceeds the
configured maximum bet fraction, equals
`min(max_bet, fraction * (p*(odd-1+1)-1)/(odd-1))` otherwise, and on the
spec scenario (p = 0.55, odd = 2.10, fraction = 0.25) yields 31/880
(about 0.0352, below the 0.05 cap) with edge 0.155. -/
theorem fractional_kelly_spec (model_prob market_odd fraction : ℚ) :
    (market_odd ≤ 1 → fractional_kelly model_prob market_odd fraction = 0) ∧
    (model_prob * market_odd ≤ 1 → fractional_kelly model_prob market_odd fraction = 0) ∧
    fractional_kelly model_prob market_odd fraction ≤ MAX_KELLY_BET ∧
    (0 ≤ fraction → 1 < market_odd → 1 < model_prob * market_odd →
      fractional_kelly model_prob market_odd fraction =
        min MAX_KELLY_BET (fraction *
          ((model_prob * (market_odd - 1 + 1) - 1) / (market_odd - 1)))) ∧
    fractional_kelly (55/100) (21/10) (25/100) = 31/880 ∧
    (31 : ℚ)/880 < MAX_KELLY_BET ∧
    calculate_edge (55/100) (21/10) = 155/1000 := by
  refine ⟨?_, ?_, ?_, ?_,
    by norm_num [fractional_kelly, MAX_KELLY_BET, min_def, max_def],
    by norm_num [MAX_KELLY_BET],
    by norm_num [calculate_edge]⟩
  · intro h
    simp only [fractional_kelly]
    rw [if_pos (by linarith : market_odd - 1 ≤ 0)]
  · intro h
    simp only [fractional_kelly]
    by_cases hb : market_odd - 1 ≤ 0
    · rw [if_pos hb]
    · rw [if_neg hb]
      push_neg at hb
      have hkel : (model_prob * (market_odd - 1 + 1) - 1) / (market_odd - 1) ≤ 0 := by
        apply div_nonpos_of_nonpos_of_nonneg
        · have he : market_odd - 1 + 1 = market_odd := by ring
          rw [he]; linarith
        · linarith
      rw [if_pos hkel]
  · simp only [fractional_kelly]
    split_ifs
    · norm_num [MAX_KELLY_BET]
    · norm_num [MAX_KELLY_BET]
    · exact min_le_left _ _
  · intro hf ho hpo
    simp only [fractional_kelly]
    have hbpos : 0 < market_odd - 1 := by linarith
    rw [if_neg (by linarith : ¬ market_odd - 1 ≤ 0)]
    have hkel : 0 < (model_prob * (market_odd - 1 + 1) - 1) / (market_odd - 1) := by
      apply div_pos _ hbpos
      have he : market_odd - 1 + 1 = market_odd := by ring
      rw [he]; linarith
    rw [if_neg (not_le.mpr hkel)]
    rw [max_eq_right (mul_nonneg hkel.le hf), mul_comm]

/-- Witness for C5 on the spec scenario: all three hypotheses of the
non-degenerate branch hold at p = 0.55, odd = 2.10, fraction = 0.25, and
the theorem yields the closed-form stake there. -/
theorem fractional_kelly_spec_witness :
    fractional_kelly (55/100) (21/10) (25/100) =
      min MAX_KELLY_BET ((25/100) *
        (((55:ℚ)/100 * ((21:ℚ)/10 - 1 + 1) - 1) / ((21:ℚ)/10 - 1))) :=
  (fractional_kelly_spec (55/100) (21/10) (25/100)).2.2.2.1
    (by norm_num) (by norm_num) (by norm_num)

/-- C9: `classify_confidence` is the total state-free rule returning ALTO
when edge > 0.10, probability > 0.40 and conditions are stable, or when
edge > 0.08 and probability > 0.35 regardless of conditions; MEDIO when no
ALTO condition holds and edge > 0.05; and BAIXO when additionally
edge <= 0.05 but edge > 0.03. -/
theorem classify_confidence_spec (edge model_prob : ℚ) (ws ff : Bool) :
    (((1/10 < edge ∧ 4/10 < model_prob ∧ ws = true ∧ ff = true) ∨
        (8/100 < edge ∧ 35/100 < model_prob)) →
      classify_confidence edge model_prob ws ff = "ALTO") ∧
    (¬((1/10 < edge ∧ 4/10 < model_prob ∧ ws = true ∧ ff = true) ∨
        (8/100 < edge ∧ 35/100 < model_prob)) → 5/100 < edge →
      classify_confidence edge model_prob ws ff = "MÉDIO") ∧
    (¬((1/10 < edge ∧ 4/10 < model_prob ∧ ws = true ∧ ff = true) ∨
        (8/100 < edge ∧ 35/100 < model_prob)) → ¬(5/100 < edge) → 3/100 < edge →
      classify_confidence edge model_prob ws ff = "BAIXO") := by
  unfold classify_confidence
  refine ⟨?_, ?_, ?_⟩ <;> intros <;> split_ifs <;> first | rfl | tauto

/-- Witness for C9: a stable high-edge candidate classifies as ALTO. -/
theorem classify_confidence_spec_witness :
    classify_confidence (12/100) (1/2) true true = "ALTO" :=
  (classify_confidence_spec (12/100) (1/2) true true).1
    (Or.inl ⟨by norm_num, by norm_num, rfl, rfl⟩)

/-- C6: a match below the composite quality floor 0.40, or with neither
real odds nor real standings, yields an empty opportunity list from
`scan_match_for_value` regardless of every odds or model value (the
`candidates` body is universally quantified). -/
theorem scan_quality_gate_empty (m : MatchAnalysis)
    (candidates : MatchAnalysis → List ValueOpportunity)
    (h : m.data_quality_score < 4/10 ∨
      (m.has_real_odds = false ∧ m.has_real_standings = false)) :
    scan_match_for_value m candidates = [] := by
  unfold scan_match_for_value
  rcases h with hdq | ⟨ho, hs⟩
  · by_cases hg : (!m.has_real_odds && !m.has_real_standings) = true
    · rw [if_pos hg]
    · rw [if_neg hg, if_pos hdq]
  · rw [if_pos (by simp [ho, hs])]

/-- The spec scenario match for C6: real data present but composite quality
flagged 0.30. -/
def quality_gate_cex_match : MatchAnalysis :=
  { match_id := 77, has_real_odds := true, has_real_standings := true,
    data_quality_score := 3/10,
    home_team := { attack_strength := 1, defense_strength := 1 },
    away_team := { attack_strength := 1, defense_strength := 1 } }

/-- A fully populated candidate opportunity used to exercise the gates. -/
def sample_opportunity : ValueOpportunity :=
  { match_id := 77, market := "1x2", selection := "Vitória Casa",
    market_odd := 21/10, model_prob := 55/100, edge := 155/1000,
    kelly_fraction := 31/880, confidence := "ALTO" }

/-- Witness for C6: the data_quality_score = 0.30 scenario produces zero
opportunities even though a candidate is on offer. -/
theorem scan_quality_gate_empty_witness :
    quality_gate_cex_match.data_quality_score < 4/10 ∧
      scan_match_for_value quality_gate_cex_match (fun _ => [sample_opportunity]) = [] :=
  ⟨by norm_num [quality_gate_cex_match],
   scan_quality_gate_empty quality_gate_cex_match (fun _ => [sample_opportunity])
    (Or.inl (by norm_num [quality_gate_cex_match]))⟩

lemma run_full_model_toOption (m : MatchAnalysis) :
    (run_full_model m).toOption =
      if (m.has_real_odds && m.has_real_standings &&
          !(decide (m.data_quality_score < 4/10)) &&
          !(decide (m.home_team.attack_strength ≤ 0 ∨ m.home_team.defense_strength ≤ 0 ∨
            m.away_team.attack_strength ≤ 0 ∨ m.away_team.defense_strength ≤ 0))) = true
      then some (model_populate m) else none := by
  unfold run_full_model
  cases ho : m.has_real_odds with
  | false => simp [Except.toOption]
  | true =>
    cases hs : m.has_real_standings with
    | false => simp [Except.toOption]
    | true =>
      simp only [Bool.not_true, Bool.true_and]
      by_cases h3 : m.data_quality_score < 4/10
      · simp [h3, Except.toOption]
      · by_cases h4 : m.home_team.attack_strength ≤ 0 ∨ m.home_team.defense_strength ≤ 0 ∨
            m.away_team.attack_strength ≤ 0 ∨ m.away_team.defense_strength ≤ 0
        · simp [h3, h4, Except.toOption]
        · simp [h3, h4, Except.toOption]

/-- C2 (amended): `run_full_model` rejects a match exactly when it lacks
real odds OR lacks real standings (both sources are mandatory, unlike the
claim's one-source-suffices reading) or its composite quality is below 0.40
or any strength coefficient is non-positive; `run_models_batch` keeps
exactly the non-rejected matches, in order, so a rejected match is excluded
while the batch continues. -/
theorem run_full_model_gate_spec :
    (∀ m : MatchAnalysis, (run_full_model m).toOption = none ↔
      (m.has_real_odds = false ∨ m.has_real_standings = false ∨
        m.data_quality_score < 4/10 ∨
        m.home_team.attack_strength ≤ 0 ∨ m.home_team.defense_strength ≤ 0 ∨
        m.away_team.attack_strength ≤ 0 ∨ m.away_team.defense_strength ≤ 0)) ∧
    (∀ ms : List MatchAnalysis,
      run_models_batch ms =
        (ms.filter (fun m => m.has_real_odds && m.has_real_standings &&
          !(decide (m.data_quality_score < 4/10)) &&
          !(decide (m.home_team.attack_strength ≤ 0 ∨ m.home_team.defense_strength ≤ 0 ∨
            m.away_team.attack_strength ≤ 0 ∨ m.away_team.defense_strength ≤ 0)))).map
          model_populate) := by
  constructor
  · intro m
    rw [run_full_model_toOption]
    split_ifs with hg
    · simp only [Bool.and_eq_true, Bool.not_eq_true', decide_eq_false_iff_not] at hg
      obtain ⟨⟨⟨h1, h2⟩, h3⟩, h4⟩ := hg
      push_neg at h4
      simp [h1, h2, h3, h4]
    · simp only [Bool.and_eq_true, Bool.not_eq_true', decide_eq_false_iff_not, not_and,
        not_not] at hg
      constructor
      · intro _
        by_cases h1 : m.has_real_odds = true
        · by_cases h2 : m.has_real_standings = true
          · by_cases h3 : m.data_quality_score < 4/10
            · exact Or.inr (Or.inr (Or.inl h3))
            · have h4 := hg ⟨⟨h1, h2⟩, h3⟩
              tauto
          · exact Or.inr (Or.inl (by simpa using h2))
        · exact Or.inl (by simpa using h1)
      · intro _; rfl
  · intro ms
    induction ms with
    | nil => rfl
    | cons m rest ih =>
      show (m :: rest).filterMap (fun m => (run_full_model m).toOption) = _
      rw [List.filterMap_cons, List.filter_cons]
      by_cases hg : (m.has_real_odds && m.has_real_standings &&
          !(decide (m.data_quality_score < 4/10)) &&
          !(decide (m.home_team.attack_strength ≤ 0 ∨ m.home_team.defense_strength ≤ 0 ∨
            m.away_team.attack_strength ≤ 0 ∨ m.away_team.defense_strength ≤ 0))) = true
      · rw [run_full_model_toOption m, if_pos hg, if_pos hg, List.map_cons]
        exact congrArg _ ih
      · rw [run_full_model_toOption m, if_neg hg, if_neg hg]
        exact ih

/-- A match with real odds, no real standings, quality 0.80 and valid
strengths: the claim says one source of real data suffices to pass the
gate, but `run_full_model` rejects it. -/
def run_full_model_cex_match : MatchAnalysis :=
  { match_id := 42
    has_real_odds := true
    has_real_standings := false
    data_quality_score := 8/10
    home_team := { attack_strength := 1, defense_strength := 1 }
    away_team := { attack_strength := 1, defense_strength := 1 } }

/-- C2 counterexample: the match above carries one source of real data
(real odds), passes the quality floor and has positive strengths — by the
claim it should be modeled — yet `run_full_model` rejects it and
`run_models_batch` drops it from the output. -/
theorem run_full_model_gate_cex :
    (run_full_model_cex_match.has_real_odds = true ∨
      run_full_model_cex_match.has_real_standings = true) ∧
    (4/10 : ℚ) ≤ run_full_model_cex_match.data_quality_score ∧
    0 < run_full_model_cex_match.home_team.attack_strength ∧
    0 < run_full_model_cex_match.home_team.defense_strength ∧
    0 < run_full_model_cex_match.away_team.attack_strength ∧
    0 < run_full_model_cex_match.away_team.defense_strength ∧
    (run_full_model run_full_model_cex_match).toOption = none ∧
    run_models_batch [run_full_model_cex_match] = [] := by
  refine ⟨Or.inl rfl, by norm_num [run_full_model_cex_match], by norm_num
    [run_full_model_cex_match], by norm_num [run_full_model_cex_match], by norm_num
    [run_full_model_cex_match], by norm_num [run_full_model_cex_match], rfl, rfl⟩

lemma list_sum_map_div (l : List ℝ) (t : ℝ) :
    (l.map (fun p => p / t)).sum = l.sum / t := by
  induction l with
  | nil => simp
  | cons x xs ih => simp [ih, add_div]

lemma list_sum_map_lt {l : List ℝ} (f g : ℝ → ℝ) (hne : l ≠ [])
    (h : ∀ x ∈ l, f x < g x) : (l.map f).sum < (l.map g).sum := by
  induction l with
  | nil => exact absurd rfl hne
  | cons x xs ih =>
    cases xs with
    | nil => simpa using h x (by simp)
    | cons y ys =>
      have h1 : f x < g x := h x (by simp)
      have h2 := ih (by simp) (fun z hz => h z (List.mem_cons_of_mem _ hz))
      simp only [List.map_cons, List.sum_cons] at h2 ⊢
      linarith

lemma normalize_implied_sum {odds : List ℝ} (hne : odds ≠ [])
    (hpos : ∀ o ∈ odds, 0 < o) : (normalize_implied odds).sum = 1 := by
  have hmem : ∀ p ∈ odds.map (fun o => 1 / o), 0 < p := by
    intro p hp
    rw [List.mem_map] at hp
    obtain ⟨o, ho, rfl⟩ := hp
    exact one_div_pos.mpr (hpos o ho)
  have hmapne : odds.map (fun o => 1 / o) ≠ [] := by
    simpa using hne
  have htot : 0 < (odds.map (fun o => 1 / o)).sum :=
    List.sum_pos _ hmem hmapne
  show ((odds.map (fun o => 1 / o)).map
    (fun p => p / (odds.map (fun o => 1 / o)).sum)).sum = 1
  rw [list_sum_map_div]
  exact div_self (ne_of_gt htot)

/-- C3: the Power-Method de-vig always returns probabilities summing to 1;
on odds with zero margin it returns the naive implied probabilities
unchanged; and whenever root-finding fails or some odd is at most 1.0 it
returns the simple multiplicative normalization.  The `root` argument
models the `brentq` solve of `sum (1/odd_i)^k = 1` over `[0.5, 2.0]`
(`hroot`); `none` models its failure. -/
theorem power_method_devig_spec (odds : List ℝ) (root : Option ℝ)
    (hroot : ∀ k, root = some k → (odds.map (fun o => (1 / o) ^ k)).sum = 1)
    (hne : odds ≠ []) (hpos : ∀ o ∈ odds, 0 < o) :
    (power_method_devig odds root).sum = 1 ∧
    ((odds.map (fun o => 1 / o)).sum = 1 →
      power_method_devig odds root = odds.map (fun o => 1 / o)) ∧
    ((root = none ∨ ∃ o ∈ odds, o ≤ 1) →
      power_method_devig odds root = normalize_implied odds) := by
  classical
  have hnorm_naive : (odds.map (fun o => 1 / o)).sum = 1 →
      normalize_implied odds = odds.map (fun o => 1 / o) := by
    intro himp
    show ((odds.map (fun o => 1 / o)).map
      (fun p => p / (odds.map (fun o => 1 / o)).sum)) = odds.map (fun o => 1 / o)
    rw [himp]
    simp
  by_cases hc : odds = [] ∨ ∃ o ∈ odds, o ≤ 1
  · have hdev : power_method_devig odds root = normalize_implied odds := by
      unfold power_method_devig
      rw [if_pos hc]
    exact ⟨by rw [hdev]; exact normalize_implied_sum hne hpos,
           fun himp => by rw [hdev]; exact hnorm_naive himp,
           fun _ => hdev⟩
  · have hall : ∀ o ∈ odds, 1 < o := by
      push_neg at hc
      exact hc.2
    cases root with
    | none =>
      have hdev : power_method_devig odds none = normalize_implied odds := by
        unfold power_method_devig
        rw [if_neg hc]
      exact ⟨by rw [hdev]; exact normalize_implied_sum hne hpos,
             fun himp => by rw [hdev]; exact hnorm_naive himp,
             fun _ => hdev⟩
    | some k =>
      have hsum := hroot k rfl
      have hdev : power_method_devig odds (some k) = odds.map (fun o => (1 / o) ^ k) := by
        unfold power_method_devig
        rw [if_neg hc]
      have hbase : ∀ o ∈ odds, 0 < 1 / o ∧ 1 / o < 1 := fun o ho =>
        ⟨one_div_pos.mpr (hpos o ho), (div_lt_one (hpos o ho)).mpr (hall o ho)⟩
      refine ⟨by rw [hdev]; exact hsum, ?_, ?_⟩
      · intro himp
        have he1 : (odds.map (fun o => (1 / o) ^ (1:ℝ))).sum = 1 := by
          have hmap : (odds.map (fun o => (1 / o) ^ (1:ℝ))) = odds.map (fun o => 1 / o) := by
            simp only [Real.rpow_one]
          rw [hmap, himp]
        have hk1 : k = 1 := by
          by_contra hk
          rcases lt_or_gt_of_ne hk with hlt | hgt
          · have hstrict : ∀ x ∈ odds,
                (fun o => (1 / o) ^ (1:ℝ)) x < (fun o => (1 / o) ^ k) x := by
              intro o ho
              exact Real.rpow_lt_rpow_of_exponent_gt (hbase o ho).1 (hbase o ho).2 hlt
            have hlt2 := list_sum_map_lt _ _ hne hstrict
            rw [he1, hsum] at hlt2
            exact lt_irrefl 1 hlt2
          · have hstrict : ∀ x ∈ odds,
                (fun o => (1 / o) ^ k) x < (fun o => (1 / o) ^ (1:ℝ)) x := by
              intro o ho
              exact Real.rpow_lt_rpow_of_exponent_gt (hbase o ho).1 (hbase o ho).2 hgt
            have hlt2 := list_sum_map_lt _ _ hne hstrict
            rw [hsum, he1] at hlt2
            exact lt_irrefl 1 hlt2
        subst hk1
        rw [hdev]
        simp only [Real.rpow_one]
      · rintro (hnone | hex)
        · exact absurd hnone (by simp)
        · exact absurd (Or.inr hex) hc

/-- Witness for C3 at the zero-margin single-entry odds vector `[1.0]`
with a failed root search. -/
theorem power_method_devig_spec_witness :
    (power_method_devig [(1 : ℝ)] none).sum = 1 :=
  (power_method_devig_spec [(1 : ℝ)] none (fun k h => nomatch h)
    (by simp) (by simp)).1

lemma dedup_go_key_nodup (norm : String → String) (l : List ValueOpportunity) :
    ∀ acc : List ValueOpportunity,
      (acc.map (fun o => norm o.selection)).Nodup →
      ((dedup_go norm l acc).map (fun o => norm o.selection)).Nodup := by
  induction l with
  | nil =>
    intro acc hacc
    simpa [dedup_go] using hacc
  | cons o rest ih =>
    intro acc hacc
    simp only [dedup_go]
    by_cases hany : (acc.any (fun p => norm p.selection == norm o.selection)) = true
    · rw [if_pos hany]
      apply ih
      have hkeys : ((acc.map (fun p =>
          if norm p.selection = norm o.selection ∧ p.edge < o.edge then o else p)).map
            (fun x => norm x.selection)) = acc.map (fun x => norm x.selection) := by
        rw [List.map_map]
        apply List.map_congr_left
        intro p _
        by_cases hcond : norm p.selection = norm o.selection ∧ p.edge < o.edge
        · simp only [Function.comp_apply, if_pos hcond]
          exact hcond.1.symm
        · simp only [Function.comp_apply, if_neg hcond]
      rw [hkeys]
      exact hacc
    · rw [if_neg hany]
      apply ih
      rw [List.map_append]
      have hnotin : norm o.selection ∉ acc.map (fun x => norm x.selection) := by
        intro hmem
        rw [List.mem_map] at hmem
        obtain ⟨p, hp, hpe⟩ := hmem
        exact hany (List.any_eq_true.mpr ⟨p, hp, by rw [beq_iff_eq]; exact hpe⟩)
      simp [List.nodup_append, hacc, hnotin]

lemma dedup_go_max_mem (norm : String → String) (l : List ValueOpportunity) :
    ∀ (acc : List ValueOpportunity) (k : String) (e : ℚ),
      ((∃ c ∈ acc, norm c.selection = k ∧ e ≤ c.edge) ∨
        (∃ a ∈ l, norm a.selection = k ∧ e ≤ a.edge)) →
      ∃ c ∈ dedup_go norm l acc, norm c.selection = k ∧ e ≤ c.edge := by
  induction l with
  | nil =>
    intro acc k e h
    simp only [dedup_go]
    rcases h with h | h
    · exact h
    · simp at h
  | cons o rest ih =>
    intro acc k e h
    simp only [dedup_go]
    by_cases hany : (acc.any (fun p => norm p.selection == norm o.selection)) = true
    · rw [if_pos hany]
      apply ih
      rcases h with ⟨c, hc, hck, hce⟩ | ⟨a, ha, hak, hae⟩
      · left
        by_cases hcond : norm c.selection = norm o.selection ∧ c.edge < o.edge
        · refine ⟨o, List.mem_map.mpr ⟨c, hc, by rw [if_pos hcond]⟩, ?_, ?_⟩
          · rw [← hcond.1]; exact hck
          · exact le_of_lt (lt_of_le_of_lt hce hcond.2)
        · exact ⟨c, List.mem_map.mpr ⟨c, hc, by rw [if_neg hcond]⟩, hck, hce⟩
      · rcases List.mem_cons.mp ha with heq | hmem
        · left
          obtain ⟨p, hp, hpe⟩ := List.any_eq_true.mp hany
          rw [beq_iff_eq] at hpe
          have hko : norm o.selection = k := by rw [← heq]; exact hak
          have heo : e ≤ o.edge := by rw [← heq]; exact hae
          by_cases hlt : p.edge < o.edge
          · refine ⟨o, List.mem_map.mpr ⟨p, hp, by rw [if_pos ⟨hpe, hlt⟩]⟩, hko, heo⟩
          · refine ⟨p, List.mem_map.mpr ⟨p, hp, ?_⟩, ?_, ?_⟩
            · rw [if_neg (fun hcon => hlt hcon.2)]
            · rw [hpe]; exact hko
            · exact le_trans heo (not_lt.mp hlt)
        · exact Or.inr ⟨a, hmem, hak, hae⟩
    · rw [if_neg hany]
      apply ih
      rcases h with ⟨c, hc, hck, hce⟩ | ⟨a, ha, hak, hae⟩
      · exact Or.inl ⟨c, List.mem_append_left _ hc, hck, hce⟩
      · rcases List.mem_cons.mp ha with heq | hmem
        · refine Or.inl ⟨a, ?_, hak, hae⟩
          rw [heq]
          exact List.mem_append_right _ (List.mem_singleton_self o)
        · exact Or.inr ⟨a, hmem, hak, hae⟩

/-- C7: deduplication inside `scan_match_for_value` is sound — the surviving
normalized selections are pairwise distinct (each appears exactly once), and
whenever two candidates for the same match normalize to the same selection
with different edges, the lower-edge one is dropped while a survivor with
that normalized selection carries at least the higher edge.  The last
conjunct ties the deduplication to `scan_match_for_value` itself: past the
quality gate the scanner returns exactly the deduplicated candidate list. -/
theorem scan_dedup_spec (l : List ValueOpportunity) :
    ((dedup_opportunities _norm_sel l).map (fun o => _norm_sel o.selection)).Nodup ∧
    (∀ a b : ValueOpportunity, a ∈ l → b ∈ l →
      _norm_sel a.selection = _norm_sel b.selection → b.edge < a.edge →
      b ∉ dedup_opportunities _norm_sel l ∧
        ∃ c ∈ dedup_opportunities _norm_sel l,
          _norm_sel c.selection = _norm_sel a.selection ∧ a.edge ≤ c.edge) ∧
    (∀ (m : MatchAnalysis) (candidates : MatchAnalysis → List ValueOpportunity),
      scan_match_for_value m candidates = [] ∨
        scan_match_for_value m candidates = dedup_opportunities _norm_sel (candidates m)) := by
  have hnodup := dedup_go_key_nodup _norm_sel l [] (by simp)
  refine ⟨hnodup, ?_, ?_⟩
  · intro a b ha hb hkey hedge
    have hmax : ∃ c ∈ dedup_opportunities _norm_sel l,
        _norm_sel c.selection = _norm_sel a.selection ∧ a.edge ≤ c.edge :=
      dedup_go_max_mem _norm_sel l [] (_norm_sel a.selection) a.edge
        (Or.inr ⟨a, ha, rfl, le_refl _⟩)
    refine ⟨?_, hmax⟩
    intro hbin
    obtain ⟨c, hcin, hck, hce⟩ := hmax
    have hbc : b ≠ c := by
      intro hbc
      rw [hbc] at hedge
      exact absurd (lt_of_le_of_lt hce hedge) (lt_irrefl _)
    have hkeq : _norm_sel b.selection = _norm_sel c.selection := by
      rw [← hkey, hck]
    exact hbc (List.inj_on_of_nodup_map hnodup hbin hcin hkeq)
  · intro m candidates
    unfold scan_match_for_value
    split_ifs
    · exact Or.inl rfl
    · exact Or.inl rfl
    · exact Or.inl rfl
    · exact Or.inr rfl

/-- Two candidates on the same match whose selections normalize equally
("Vitória Casa" vs "vitoria casa") but with different edges. -/
def dedup_witness_a : ValueOpportunity :=
  { match_id := 5
    market := "1x2"
    selection := "Vitória Casa"
    market_odd := 21/10
    model_prob := 55/100
    edge := 1/10
    kelly_fraction := 1/50
    confidence := "ALTO" }

/-- The lower-edge duplicate of `dedup_witness_a`. -/
def dedup_witness_b : ValueOpportunity :=
  { match_id := 5
    market := "Dupla Chance"
    selection := "vitoria casa"
    market_odd := 2
    model_prob := 1/2
    edge := 1/20
    kelly_fraction := 1/100
    confidence := "BAIXO" }

/-- Witness for C7: of the two normalized-equal candidates only the
higher-edge one survives deduplication. -/
theorem scan_dedup_spec_witness :
    dedup_witness_b ∉ dedup_opportunities _norm_sel [dedup_witness_a, dedup_witness_b] :=
  ((scan_dedup_spec [dedup_witness_a, dedup_witness_b]).2.1 dedup_witness_a dedup_witness_b
    (by simp) (by simp) (by decide)
    (by norm_num [dedup_witness_a, dedup_witness_b])).1

lemma roundq_clamp_le_le (n : ℕ) (lo hi x : ℚ) (hlo : roundq n lo = lo)
    (hhi : roundq n hi = hi) (hlh : lo ≤ hi) :
    lo ≤ roundq n (max lo (min hi x)) ∧ roundq n (max lo (min hi x)) ≤ hi := by
  constructor
  · have h1 : lo ≤ max lo (min hi x) := le_max_left _ _
    have h2 := roundq_mono (n := n) h1
    rw [hlo] at h2
    exact h2
  · have h1 : max lo (min hi x) ≤ hi := max_le hlh (min_le_left _ _)
    have h2 := roundq_mono (n := n) h1
    rw [hhi] at h2
    exact h2

lemma fit_rho_parameter_bounds (l m : ℚ) :
    -(12/100) ≤ fit_rho_parameter l m ∧ fit_rho_parameter l m ≤ 0 ∧
      |fit_rho_parameter l m| ≤ 1 / max (1/100) (l * m) := by
  have hmaxpos : (0:ℚ) < max (1/100) (l * m) :=
    lt_of_lt_of_le (by norm_num) (le_max_left _ _)
  have hmr : 0 < 1 / max (1/100 : ℚ) (l * m) := by positivity
  simp only [fit_rho_parameter]
  set r : ℚ := if l + m < 15/10 then -(12/100) else if l + m < 25/10 then -(8/100)
    else if l + m < 35/10 then -(4/100) else -(2/100) with hr
  have hr1 : -(12/100) ≤ r ∧ r < 0 := by
    rw [hr]; split_ifs <;> norm_num
  have hminr : min (1 / max (1/100) (l * m)) r = r :=
    min_eq_right (le_of_lt (lt_trans hr1.2 hmr))
  rw [hminr]
  refine ⟨le_trans hr1.1 (le_max_right _ _), max_le (by linarith) (le_of_lt hr1.2), ?_⟩
  rw [abs_le]
  exact ⟨le_max_left _ _,
    max_le (by linarith) (le_trans (le_of_lt hr1.2) (le_of_lt hmr))⟩

lemma fit_rho_tau_pos {l m : ℚ} (hl1 : 3/10 ≤ l) (hl2 : l ≤ 7/2) (hm1 : 2/10 ≤ m)
    (hm2 : m ≤ 3) (x y : ℕ) : 0 < _tau x y l m (fit_rho_parameter l m) := by
  obtain ⟨hr1, hr2, _⟩ := fit_rho_parameter_bounds l m
  have hl0 : (0:ℚ) < l := lt_of_lt_of_le (by norm_num) hl1
  have hm0 : (0:ℚ) < m := lt_of_lt_of_le (by norm_num) hm1
  unfold _tau
  split_ifs
  · nlinarith [mul_pos hl0 hm0, mul_nonneg (mul_pos hl0 hm0).le (neg_nonneg.mpr hr2)]
  · nlinarith [mul_nonneg (sub_nonneg.mpr hl2) (neg_nonneg.mpr hr2)]
  · nlinarith [mul_nonneg (sub_nonneg.mpr hm2) (neg_nonneg.mpr hr2)]
  · linarith
  · norm_num

lemma tau_ratCast (x y : ℕ) (a b c : ℚ) :
    ((_tau x y a b c : ℚ) : ℝ) = _tau x y (a : ℝ) (b : ℝ) (c : ℝ) := by
  unfold _tau
  split_ifs <;> push_cast <;> ring

/-- C10: `fit_rho_parameter` always lands in [-0.12, 0] within the clamp
`|rho| <= 1/max(0.01, lambda*mu)`; on the expected-goal ranges the pipeline
produces (lambda in [0.3, 3.5], mu in [0.2, 3.0], which is exactly where
`calculate_expected_goals` clamps its output) every Dixon-Coles tau factor
is strictly positive, hence every pre-normalization score-matrix cell and
the grid total are strictly positive. -/
theorem fit_rho_tau_positive (lq mq : ℚ)
    (hl1 : 3/10 ≤ lq) (hl2 : lq ≤ 7/2) (hm1 : 2/10 ≤ mq) (hm2 : mq ≤ 3) :
    (∀ l m : ℚ, -(12/100) ≤ fit_rho_parameter l m ∧ fit_rho_parameter l m ≤ 0 ∧
      |fit_rho_parameter l m| ≤ 1 / max (1/100) (l * m)) ∧
    (∀ x y : ℕ, 0 < _tau x y lq mq (fit_rho_parameter lq mq)) ∧
    (∀ x y : ℕ, 0 < dixon_coles_probability x y (lq : ℝ) (mq : ℝ)
      ((fit_rho_parameter lq mq : ℚ) : ℝ)) ∧
    0 < score_matrix_total (lq : ℝ) (mq : ℝ) ((fit_rho_parameter lq mq : ℚ) : ℝ)
      DIXON_COLES_MAX_GOALS ∧
    (∀ m : MatchAnalysis,
      3/10 ≤ (calculate_expected_goals m).1 ∧ (calculate_expected_goals m).1 ≤ 7/2 ∧
      2/10 ≤ (calculate_expected_goals m).2 ∧ (calculate_expected_goals m).2 ≤ 3) := by
  have hlr : (0:ℝ) < (lq : ℝ) := by
    exact_mod_cast lt_of_lt_of_le (by norm_num) hl1
  have hmr : (0:ℝ) < (mq : ℝ) := by
    exact_mod_cast lt_of_lt_of_le (by norm_num) hm1
  have htaur : ∀ x y : ℕ,
      0 < _tau x y (lq : ℝ) (mq : ℝ) ((fit_rho_parameter lq mq : ℚ) : ℝ) := by
    intro x y
    rw [← tau_ratCast]
    exact_mod_cast fit_rho_tau_pos hl1 hl2 hm1 hm2 x y
  refine ⟨fit_rho_parameter_bounds, fit_rho_tau_pos hl1 hl2 hm1 hm2, ?_, ?_, ?_⟩
  · intro x y
    unfold dixon_coles_probability
    exact mul_pos (mul_pos (htaur x y) (poisson_pmf_pos hlr x)) (poisson_pmf_pos hmr y)
  · exact score_matrix_total_pos _ (by norm_num [DIXON_COLES_MAX_GOALS]) hlr hmr
  · intro m
    simp only [calculate_expected_goals]
    refine ⟨?_, ?_, ?_, ?_⟩
    · exact (roundq_clamp_le_le 4 (3/10) (7/2) _ (by norm_num [roundq, round_eq])
        (by norm_num [roundq, round_eq]) (by norm_num)).1
    · exact (roundq_clamp_le_le 4 (3/10) (7/2) _ (by norm_num [roundq, round_eq])
        (by norm_num [roundq, round_eq]) (by norm_num)).2
    · exact (roundq_clamp_le_le 4 (2/10) 3 _ (by norm_num [roundq, round_eq])
        (by norm_num [roundq, round_eq]) (by norm_num)).1
    · exact (roundq_clamp_le_le 4 (2/10) 3 _ (by norm_num [roundq, round_eq])
        (by norm_num [roundq, round_eq]) (by norm_num)).2

/-- Witness for C10 at lambda = 1, mu = 1 (inside both pipeline ranges). -/
theorem fit_rho_tau_positive_witness :
    0 < _tau 0 0 (1:ℚ) 1 (fit_rho_parameter 1 1) :=
  (fit_rho_tau_positive 1 1 (by norm_num) (by norm_num) (by norm_num)
    (by norm_num)).2.1 0 0

lemma roundq_floor_le (n : ℕ) (lo x : ℚ) (hlo : roundq n lo = lo) :
    lo ≤ roundq n (max lo x) := by
  have h1 : lo ≤ max lo x := le_max_left _ _
  have h2 := roundq_mono (n := n) h1
  rw [hlo] at h2
  exact h2

lemma abs_roundq4_sub (x : ℚ) : |roundq 4 x - x| ≤ 1/20000 := by
  have h := abs_roundq_sub 4 x
  norm_num at h
  linarith

/-- C4 (amended): after `apply_contextual_adjustments`, provided the
pre-normalization 1X2 mass is positive (always true for pipeline outputs),
the three 1X2 probabilities are renormalized to sum to 1 within the
4-decimal rounding tolerance, the over-2.5 and BTTS probabilities lie
strictly in (0,1) (they are clamped to [0.05, 0.95]), and the goal, corner
and card expectations respect their floors.  (The claim's further assertion
that the 1X2 probabilities themselves land in (0,1) is false — see the
counterexample.) -/
theorem apply_contextual_adjustments_spec (m : MatchAnalysis)
    (h : 0 < (context_pre_norm m).model_prob_home + (context_pre_norm m).model_prob_draw +
      (context_pre_norm m).model_prob_away) :
    |(apply_contextual_adjustments m).model_prob_home +
        (apply_contextual_adjustments m).model_prob_draw +
        (apply_contextual_adjustments m).model_prob_away - 1| ≤ 3/20000 ∧
    (0 < (apply_contextual_adjustments m).model_prob_over25 ∧
      (apply_contextual_adjustments m).model_prob_over25 < 1) ∧
    (0 < (apply_contextual_adjustments m).model_prob_btts ∧
      (apply_contextual_adjustments m).model_prob_btts < 1) ∧
    2/10 ≤ (apply_contextual_adjustments m).model_home_xg ∧
    15/100 ≤ (apply_contextual_adjustments m).model_away_xg ∧
    3 ≤ (apply_contextual_adjustments m).model_corners_expected ∧
    15/10 ≤ (apply_contextual_adjustments m).model_cards_expected := by
  set p := context_pre_norm m with hp
  have happ : apply_contextual_adjustments m = context_finalize p := rfl
  set T := p.model_prob_home + p.model_prob_draw + p.model_prob_away with hT
  have hfin : context_finalize p =
      { p with
        model_prob_home := roundq 4 (p.model_prob_home / T)
        model_prob_draw := roundq 4 (p.model_prob_draw / T)
        model_prob_away := roundq 4 (p.model_prob_away / T)
        model_prob_over25 := roundq 4 (max (5/100) (min (95/100) p.model_prob_over25))
        model_prob_btts := roundq 4 (max (5/100) (min (95/100) p.model_prob_btts))
        model_home_xg := roundq 3 (max (2/10) p.model_home_xg)
        model_away_xg := roundq 3 (max (15/100) p.model_away_xg)
        model_corners_expected := roundq 2 (max 3 p.model_corners_expected)
        model_cards_expected := roundq 2 (max (15/10) p.model_cards_expected) } := by
    simp only [context_finalize]
    rw [if_pos h]
  rw [happ, hfin]
  have hTpos : 0 < T := h
  have hsum : p.model_prob_home / T + p.model_prob_draw / T + p.model_prob_away / T = 1 := by
    rw [div_add_div_same, div_add_div_same]
    exact div_self (ne_of_gt hTpos)
  refine ⟨?_, ?_, ?_, ?_, ?_, ?_, ?_⟩
  · have e1 := abs_roundq4_sub (p.model_prob_home / T)
    have e2 := abs_roundq4_sub (p.model_prob_draw / T)
    have e3 := abs_roundq4_sub (p.model_prob_away / T)
    have hre : roundq 4 (p.model_prob_home / T) + roundq 4 (p.model_prob_draw / T) +
        roundq 4 (p.model_prob_away / T) - 1 =
        (roundq 4 (p.model_prob_home / T) - p.model_prob_home / T) +
          (roundq 4 (p.model_prob_draw / T) - p.model_prob_draw / T) +
          (roundq 4 (p.model_prob_away / T) - p.model_prob_away / T) := by
      rw [← hsum]; ring
    show |roundq 4 (p.model_prob_home / T) + roundq 4 (p.model_prob_draw / T) +
      roundq 4 (p.model_prob_away / T) - 1| ≤ 3/20000
    rw [hre]
    have ha1 := abs_add ((roundq 4 (p.model_prob_home / T) - p.model_prob_home / T) +
      (roundq 4 (p.model_prob_draw / T) - p.model_prob_draw / T))
      (roundq 4 (p.model_prob_away / T) - p.model_prob_away / T)
    have ha2 := abs_add (roundq 4 (p.model_prob_home / T) - p.model_prob_home / T)
      (roundq 4 (p.model_prob_draw / T) - p.model_prob_draw / T)
    linarith
  · have hb := roundq_clamp_le_le 4 (5/100) (95/100) p.model_prob_over25
      (by norm_num [roundq, round_eq]) (by norm_num [roundq, round_eq]) (by norm_num)
    constructor
    · calc (0:ℚ) < 5/100 := by norm_num
        _ ≤ _ := hb.1
    · calc roundq 4 (max (5/100) (min (95/100) p.model_prob_over25)) ≤ 95/100 := hb.2
        _ < 1 := by norm_num
  · have hb := roundq_clamp_le_le 4 (5/100) (95/100) p.model_prob_btts
      (by norm_num [roundq, round_eq]) (by norm_num [roundq, round_eq]) (by norm_num)
    constructor
    · calc (0:ℚ) < 5/100 := by norm_num
        _ ≤ _ := hb.1
    · calc roundq 4 (max (5/100) (min (95/100) p.model_prob_btts)) ≤ 95/100 := hb.2
        _ < 1 := by norm_num
  · exact roundq_floor_le 3 (2/10) p.model_home_xg (by norm_num [roundq, round_eq])
  · exact roundq_floor_le 3 (15/100) p.model_away_xg (by norm_num [roundq, round_eq])
  · exact roundq_floor_le 2 3 p.model_corners_expected (by norm_num [roundq, round_eq])
  · exact roundq_floor_le 2 (15/10) p.model_cards_expected (by norm_num [roundq, round_eq])

/-- A benign match for exercising the contextual pipeline: both teams in a
title race (urgency 1.0), calm weather, no fatigue, no injuries. -/
def context_witness_match : MatchAnalysis :=
  { match_id := 1
    home_team := { points_to_title := 0
                   points_to_relegation := 30
                   league_position := 1
                   games_remaining := 10 }
    away_team := { points_to_title := 0
                   points_to_relegation := 30
                   league_position := 2
                   games_remaining := 10 }
    model_prob_home := 3/10
    model_prob_draw := 4/10
    model_prob_away := 3/10
    model_prob_over25 := 1/2
    model_prob_btts := 1/2
    model_home_xg := 3/2
    model_away_xg := 6/5
    model_corners_expected := 10
    model_cards_expected := 4 }

/-- Witness for C4 on the benign match above: its pre-normalization 1X2
mass is positive, so the amended invariants hold for it. -/
theorem apply_contextual_adjustments_spec_witness :
    2/10 ≤ (apply_contextual_adjustments context_witness_match).model_home_xg :=
  (apply_contextual_adjustments_spec context_witness_match
    (by norm_num [context_pre_norm, context_urgency_step, context_weather_step,
      context_fatigue_step, context_injury_step, calculate_league_urgency,
      calculate_weather_adjustments, check_fatigue, calculate_injury_impact,
      context_witness_match, roundq, round_eq])).2.2.2.1

/-- A match whose away side is a complacent mid-table team (urgency 0.2)
facing a title contender (urgency 1.0), with a tiny initial away
probability 0.01: the motivation boost drives it to -0.02 before
normalization. -/
def context_cex_match : MatchAnalysis :=
  { match_id := 2
    home_team := { points_to_title := 0
                   points_to_relegation := 50
                   league_position := 1
                   games_remaining := 10 }
    away_team := { points_to_title := 20
                   points_to_relegation := 20
                   league_position := 10
                   games_remaining := 4 }
    model_prob_home := 6/10
    model_prob_draw := 38/100
    model_prob_away := 1/100
    model_prob_over25 := 1/2
    model_prob_btts := 1/2
    model_home_xg := 3/2
    model_away_xg := 6/5
    model_corners_expected := 10
    model_cards_expected := 4 }

/-- C4 counterexample: after `apply_contextual_adjustments` the stored away
probability of the match above is negative (-0.0202), refuting the claim
that every probability stored in the model outputs lies strictly in (0,1). -/
theorem apply_contextual_adjustments_cex :
    (apply_contextual_adjustments context_cex_match).model_prob_away < 0 := by
  norm_num [apply_contextual_adjustments, context_pre_norm, context_finalize,
    context_urgency_step, context_weather_step, context_fatigue_step,
    context_injury_step, calculate_league_urgency, calculate_weather_adjustments,
    check_fatigue, calculate_injury_impact, context_cex_match, roundq, round_eq,
    abs_of_nonneg]
